import Mathlib

/-!
Verification of the uWSGI protocol adapter (`uwsgi.go`) against its
natural-language specification.

The development shallowly embeds the current revision of `uwsgi.go`:

* `parseLoop` — the record-scan loop of `Listener.Accept` (cursor arithmetic
  performed modulo 2^16, exactly as Go's `uint16` does; Go slice and index
  panics are modelled by the `panic` outcome);
* `parseFrame` — the 4-byte header read, the `io.ReadFull` of the block and
  the record scan;
* `decodeFrame` — the full decode task body: protocol validation, synthesis
  of the request line and header lines into the preamble buffer, and the
  one-shot completion signal (`signaled` records whether `c.readych <- true`
  was executed);
* `connRead`/`runReads` — `Conn.Read`'s buffer-then-raw delivery;
* `buildHeader`/`passengerServe` — `Passenger.ServeHTTP`'s frame building
  and error handling.

Bytes are `Nat`s below 256; Go strings are byte lists; Go's
`map[string][]string` is an association list with first-insertion order and
unique keys, compared via `lookupEnv` (Go map equality is pointwise).
Go map iteration order is nondeterministic, so every place the source
iterates a map the model takes the iteration order as an explicit parameter.
-/

/-- Wrap to Go `uint16` arithmetic. -/
def u16 (n : Nat) : Nat := n % 65536

/-- Bytes of an ASCII string literal (Go strings are byte strings). -/
def strBytes (s : String) : List Nat := s.data.map Char.toNat

/-- The decoded environment: Go's `map[string][]string` as an association
list in first-insertion order with unique keys. -/
abbrev EnvL := List (List Nat × List (List Nat))

/-- Go map lookup `env[k]`. -/
def lookupEnv : EnvL → List Nat → Option (List (List Nat))
  | [], _ => none
  | (k', vs) :: e, k => if k' = k then some vs else lookupEnv e k

/-- Go `val, ok := c.env[k]; if !ok { val = ... }; val = append(val, v);
c.env[k] = val`: append `v` to `k`'s value list, or add a new entry. -/
def insertEnv : EnvL → List Nat → List Nat → EnvL
  | [], k, v => [(k, [v])]
  | (k', vs) :: e, k, v =>
      if k' = k then (k', vs ++ [v]) :: e else (k', vs) :: insertEnv e k v

/-- The keys of an association-list environment. -/
def keysE (e : EnvL) : List (List Nat) := e.map Prod.fst

/-- `"REQUEST_METHOD"` as bytes. -/
def kReqMethod : List Nat := strBytes "REQUEST_METHOD"

/-- `"REQUEST_URI"` as bytes. -/
def kReqUri : List Nat := strBytes "REQUEST_URI"

/-- `"SERVER_PROTOCOL"` as bytes. -/
def kServerProtocol : List Nat := strBytes "SERVER_PROTOCOL"

/-- `"CONTENT_LENGTH"` as bytes. -/
def kContentLength : List Nat := strBytes "CONTENT_LENGTH"

/-- State threaded through the record-scan loop: the environment map and the
`reqMethod`, `reqURI`, `reqProtocol` locals of `Listener.Accept`. -/
structure ParseSt where
  env : EnvL
  m : List Nat
  u : List Nat
  p : List Nat
deriving DecidableEq, Repr

/-- The loop state before the first record: empty map, empty locals. -/
def initSt : ParseSt := ⟨[], [], [], []⟩

/-- One record's effect on the loop state: the
`if k == "REQUEST_METHOD" ... else if ... else if ...` chain followed by the
map insertion. -/
def updateSt (st : ParseSt) (k v : List Nat) : ParseSt :=
  let st1 :=
    if k = kReqMethod then { st with m := v }
    else if k = kReqUri then { st with u := v }
    else if k = kServerProtocol then { st with p := v }
    else st
  { st1 with env := insertEnv st1.env k v }

/-- Outcome of the record-scan loop.  `err` is the
"uwsgi vars index out of range" return (the source closes the connection
there); `panicked` is a Go runtime panic (out-of-range index or inverted
slice bounds); `nofuel` never occurs for the frames reasoned about here. -/
inductive ParseOut where
  | ok (st : ParseSt)
  | err
  | panicked
  | nofuel
deriving DecidableEq, Repr

/-- Structural list indexing (Go `b[i]` semantics: defined exactly when
`i < len b`). -/
def byteAt : List Nat → Nat → Option Nat
  | [], _ => none
  | a :: _, 0 => some a
  | _ :: t, n + 1 => byteAt t n

/-- Go `envbuf[i]`, panicking (`none`) when out of range. -/
def idx (buf : List Nat) (i : Nat) : Option Nat := byteAt buf i

/-- Go `binary.LittleEndian.Uint16([]byte{envbuf[i], envbuf[i+1]})` where
`i` is a `uint16`; `none` models the index panic. -/
def readU16 (buf : List Nat) (i : Nat) : Option Nat :=
  match idx buf i, idx buf (u16 (i + 1)) with
  | some a, some b => some (a + 256 * b)
  | _, _ => none

/-- Go `envbuf[lo:hi]` with `uint16` bounds; `none` models the slice-bounds
panic (`lo > hi` or `hi > len`). -/
def goSlice (buf : List Nat) (lo hi : Nat) : Option (List Nat) :=
  if lo ≤ hi ∧ hi ≤ buf.length then some ((buf.drop lo).take (hi - lo))
  else none

/-- The record-scan loop of `Listener.Accept`, cursor in `uint16`
arithmetic.  Mirrors the source statement for statement: top guard breaks,
mid-record guards error out, slices may panic, and the loop ends once the
cursor reaches the block size. -/
def parseLoop : Nat → List Nat → Nat → ParseSt → ParseOut
  | 0, _, _, _ => .nofuel
  | fuel + 1, buf, i, st =>
    if u16 (i + 1) ≥ buf.length then .ok st
    else
      match readU16 buf i with
      | none => .panicked
      | some kl =>
        let i2 := u16 (i + 2)
        if u16 (i2 + kl) > buf.length then .err
        else
          match goSlice buf i2 (u16 (i2 + kl)) with
          | none => .panicked
          | some k =>
            let i3 := u16 (i2 + kl)
            if u16 (i3 + 1) ≥ buf.length then .err
            else
              match readU16 buf i3 with
              | none => .panicked
              | some vl =>
                let i4 := u16 (i3 + 2)
                if u16 (i4 + vl) > buf.length then .err
                else
                  match goSlice buf i4 (u16 (i4 + vl)) with
                  | none => .panicked
                  | some v =>
                    let i5 := u16 (i4 + vl)
                    let st' := updateSt st k v
                    if i5 ≥ buf.length then .ok st'
                    else parseLoop fuel buf i5 st'

/-- `blockSize`: little-endian `uint16` from bytes 1 and 2 of the head
(bytes the 4-byte read did not fill stay zero). -/
def headSize (s : List Nat) : Nat :=
  (byteAt s 1).getD 0 + 256 * ((byteAt s 2).getD 0)

/-- Result of the frame-parsing stage (head + block + record scan). -/
inductive PRes where
  | ok (st : ParseSt) (rest : List Nat)
  | tErr
  | fErr
  | panicked
  | nofuel
deriving DecidableEq, Repr

/-- The frame-parsing stage of `Listener.Accept`: read the 4-byte head,
`io.ReadFull` the block (`tErr` on short read), scan the records.  `rest` is
the part of the stream the decode never consumed. -/
def parseFrame (stream : List Nat) : PRes :=
  let envsize := headSize stream
  let r1 := stream.drop 4
  if r1.length < envsize then .tErr
  else
    match parseLoop (envsize + 1) (r1.take envsize) 0 initSt with
    | .ok st => .ok st (r1.drop envsize)
    | .err => .fErr
    | .panicked => .panicked
    | .nofuel => .nofuel

/-- The environment of a parse result (empty on failure). -/
def envOfP : PRes → EnvL
  | .ok st _ => st.env
  | _ => []

/-- The unconsumed stream of a parse result (empty on failure). -/
def restOfP : PRes → List Nat
  | .ok _ rest => rest
  | _ => []

/-- Is `c` an ASCII digit byte. -/
def isDigitB (c : Nat) : Bool := 48 ≤ c && c ≤ 57

/-- Decimal value of a digit list. -/
def digitsVal (ds : List Nat) : Nat := ds.foldl (fun a c => a * 10 + (c - 48)) 0

/-- Go `strconv.ParseInt(s, 10, 64)` with the error ignored, as in
`cl, _ = strconv.ParseInt(c.env[i][0], 10, 64)`: syntax errors yield 0,
out-of-range values are clamped to the `int64` bounds (ParseInt returns the
clamped value together with the ignored range error). -/
def goParseInt64 (s : List Nat) : Int :=
  let (neg, ds) :=
    match s with
    | 43 :: t => (false, t)
    | 45 :: t => (true, t)
    | t => (false, t)
  if ds = [] ∨ ds.any (fun c => !isDigitB c) then 0
  else
    let n := digitsVal ds
    if neg then -(Int.ofNat (min n 9223372036854775808))
    else Int.ofNat (min n 9223372036854775807)

/-- Decimal bytes of a natural number (Go `fmt.Fprintf("%d", cl)` for the
positive values that reach it). -/
def natDec (n : Nat) : List Nat := (Nat.toDigits 10 n).map Char.toNat

/-- The `headerMappings` table of the source (current revision: sixteen
entries, no `HTTP_CONNECTION`). -/
def headerMappings (k : List Nat) : Option (List Nat) :=
  if k = strBytes "HTTP_HOST" then some (strBytes "Host")
  else if k = strBytes "CONTENT_TYPE" then some (strBytes "Content-Type")
  else if k = strBytes "HTTP_ACCEPT" then some (strBytes "Accept")
  else if k = strBytes "HTTP_ACCEPT_ENCODING" then some (strBytes "Accept-Encoding")
  else if k = strBytes "HTTP_ACCEPT_LANGUAGE" then some (strBytes "Accept-Language")
  else if k = strBytes "HTTP_ACCEPT_CHARSET" then some (strBytes "Accept-Charset")
  else if k = strBytes "HTTP_CONTENT_TYPE" then some (strBytes "Content-Type")
  else if k = strBytes "HTTP_COOKIE" then some (strBytes "Cookie")
  else if k = strBytes "HTTP_IF_MATCH" then some (strBytes "If-Match")
  else if k = strBytes "HTTP_IF_MODIFIED_SINCE" then some (strBytes "If-Modified-Since")
  else if k = strBytes "HTTP_IF_NONE_MATCH" then some (strBytes "If-None-Match")
  else if k = strBytes "HTTP_IF_RANGE" then some (strBytes "If-Range")
  else if k = strBytes "HTTP_RANGE" then some (strBytes "Range")
  else if k = strBytes "HTTP_REFERER" then some (strBytes "Referer")
  else if k = strBytes "HTTP_USER_AGENT" then some (strBytes "User-Agent")
  else if k = strBytes "HTTP_X_REQUESTED_WITH" then some (strBytes "Requested-With")
  else none

/-- CRLF bytes. -/
def crlf : List Nat := [13, 10]

/-- The header lines emitted for one key of the environment: the
`switch`/`default` body of the header loop.  `CONTENT_LENGTH` emits a single
`Content-Length` line when its first value parses positive; any other key
emits one line per value, under its mapped canonical name. -/
def groupFor (env : EnvL) (k : List Nat) : List (List Nat) :=
  if k = kContentLength then
    let v0 := ((lookupEnv env k).getD []).headD []
    let cl := goParseInt64 v0
    if 0 < cl then [strBytes "Content-Length: " ++ natDec cl.toNat ++ crlf] else []
  else
    let hname := (headerMappings k).getD k
    ((lookupEnv env k).getD []).map (fun v => hname ++ strBytes ": " ++ v ++ crlf)

/-- The per-key groups of header lines, in map-iteration order `ord`. -/
def hdrGroups (env : EnvL) (ord : List (List Nat)) : List (List (List Nat)) :=
  ord.map (groupFor env)

/-- All header-line bytes of the `for i := range c.env` loop, in
map-iteration order `ord`. -/
def headerBytes (env : EnvL) (ord : List (List Nat)) : List Nat :=
  (hdrGroups env ord).flatten.flatten

/-- The synthesized request line
`fmt.Fprintf(buf, "%s %s %s\r\n", reqMethod, reqURI, reqProtocol)`. -/
def reqLineOf (m u p : List Nat) : List Nat :=
  m ++ [32] ++ u ++ [32] ++ p ++ crlf

/-- Overall outcome of the decode task. -/
inductive Outcome where
  | ok
  | transportErr
  | framingErr (msg : String)
  | panicked
  | nofuel
deriving DecidableEq, Repr

/-- Everything observable about one run of the decode task:  the outcome,
the environment, the synthesized preamble buffer, the unconsumed stream
(`rest`), whether `fd.Close()` ran, and whether `c.readych <- true` ran
(`signaled`). -/
structure DecResult where
  outcome : Outcome
  env : EnvL
  preamble : List Nat
  rest : List Nat
  closed : Bool
  signaled : Bool
deriving DecidableEq, Repr

/-- The message of the out-of-range framing error. -/
def idxMsg : String := "Invalid uwsgi request; uwsgi vars index out of range"

/-- The message of the missing-protocol framing error. -/
def protoMsg : String := "Invalid uwsgi request; no protocol specified"

/-- The decode task of `Listener.Accept` (the goroutine body), with the Go
map iteration order of the header loop supplied as `ord`.  On success the
preamble is the request line (with the client-declared protocol), the
header lines and a blank line; the request body is not pre-read, so `rest`
is everything after the block. -/
def decodeFrame (stream : List Nat) (ord : List (List Nat)) : DecResult :=
  match parseFrame stream with
  | .tErr => ⟨.transportErr, [], [], [], true, false⟩
  | .fErr => ⟨.framingErr idxMsg, [], [], [], true, false⟩
  | .panicked => ⟨.panicked, [], [], [], false, false⟩
  | .nofuel => ⟨.nofuel, [], [], [], false, false⟩
  | .ok st rest =>
    if st.p = [] then ⟨.framingErr protoMsg, st.env, [], [], true, false⟩
    else
      ⟨.ok, st.env,
        reqLineOf st.m st.u st.p ++ headerBytes st.env ord ++ crlf,
        rest, false, true⟩

/-- Little-endian bytes of `uint16(n)` (`binary.Write(conn, LittleEndian,
uint16(len(...)))`). -/
def le16 (n : Nat) : List Nat := [u16 n % 256, u16 n / 256]

/-- The wire bytes of a record sequence, as `Passenger.ServeHTTP` emits
them: `u16 keyLen ++ key ++ u16 valLen ++ val` per record. -/
def encodeRecs : List (List Nat × List Nat) → List Nat
  | [] => []
  | (k, v) :: rs => le16 k.length ++ k ++ le16 v.length ++ v ++ encodeRecs rs

/-- The true (unwrapped) size of a record sequence. -/
def recsSize (rs : List (List Nat × List Nat)) : Nat :=
  rs.foldr (fun r a => 4 + r.1.length + r.2.length + a) 0

/-- The flat record sequence the encoder's nested
`for k, v := range header { for _, vv := range v {...} }` loops emit, for a
given key iteration order. -/
def flatRecs (l : EnvL) : List (List Nat × List Nat) :=
  l.flatMap (fun kv => kv.2.map (fun v => (kv.1, v)))

/-- `size` as the encoder computes it: `uint16` accumulation
(`size += uint16(len(k)) + 2; size += uint16(len(vv)) + 2`), wrapping modulo
2^16. -/
def frameSizeF (rs : List (List Nat × List Nat)) : Nat :=
  rs.foldl (fun s r =>
    u16 (u16 (s + u16 (u16 r.1.length + 2)) + u16 (u16 r.2.length + 2))) 0

/-- The full frame `Passenger.ServeHTTP` sends: the 4-byte head
(`modifier1 = 0`, wrapped size little-endian, `modifier2 = 0`), the records
in emission order `flatRecs l`, then the request body copied verbatim. -/
def encodeFrame (l : EnvL) (body : List Nat) : List Nat :=
  let sz := frameSizeF (flatRecs l)
  [0, sz % 256, sz / 256, 0] ++ encodeRecs (flatRecs l) ++ body

/-- A frame with the declared block size equal to the true record-sequence
size; equals `encodeFrame` whenever the true size fits in `uint16`. -/
def mkFrame (rs : List (List Nat × List Nat)) (body : List Nat) : List Nat :=
  [0, recsSize rs % 256, recsSize rs / 256, 0] ++ encodeRecs rs ++ body

/-- The sticky error of a connection (`c.err`). -/
inductive GoErr where
  | eof
deriving DecidableEq, Repr

/-- `Conn` state after the completion signal: the remaining preamble buffer
(`c.reader`, a `bytes.Buffer`), the remaining raw-socket bytes, the
`hdrdone` flag and the cached error. -/
structure ConnSt where
  pre : List Nat
  raw : List Nat
  hdrdone : Bool
  cachedErr : Option GoErr
deriving DecidableEq, Repr

/-- `bytes.Buffer.Read` into a buffer of length `n`: zero-length reads
return `(0, nil)`; an exhausted buffer returns `(0, io.EOF)`; otherwise up
to `n` bytes.  Result: bytes read, remaining buffer, whether the error was
non-nil. -/
def bufferRead (pre : List Nat) (n : Nat) : List Nat × List Nat × Bool :=
  if n = 0 then ([], pre, false)
  else if pre = [] then ([], [], true)
  else (pre.take n, pre.drop n, false)

/-- The raw `net.Conn` read: an exhausted stream returns EOF, otherwise up
to `n` of the remaining bytes. -/
def rawRead (raw : List Nat) (n : Nat) : List Nat × List Nat × Option GoErr :=
  if n = 0 then ([], raw, none)
  else if raw = [] then ([], [], some .eof)
  else (raw.take n, raw.drop n, none)

/-- The raw-phase branch of `Conn.Read`: read the underlying connection and
cache its error (`c.err = e`). -/
def rawStep (st : ConnSt) (n : Nat) : List Nat × Option GoErr × ConnSt :=
  let (out, raw', e) := rawRead st.raw n
  (out, e, { st with raw := raw', cachedErr := e })

/-- `Conn.Read` after the completion signal: serve the preamble buffer; on
`n == 0 || e != nil` set `hdrdone` and fall through to the raw socket; a
cached error short-circuits everything. -/
def connRead (st : ConnSt) (n : Nat) : List Nat × Option GoErr × ConnSt :=
  match st.cachedErr with
  | some e => ([], some e, st)
  | none =>
    if st.hdrdone then rawStep st n
    else
      let (out, pre', bad) := bufferRead st.pre n
      if out.length = 0 ∨ bad then
        rawStep { st with pre := pre', hdrdone := true } n
      else (out, none, { st with pre := pre' })

/-- Run a sequence of `Read` calls with the given buffer sizes,
concatenating everything delivered to the consumer. -/
def runReads : List Nat → ConnSt → List Nat × ConnSt
  | [], st => ([], st)
  | n :: ns, st =>
    let (out, _, st') := connRead st n
    let (outs, st'') := runReads ns st'
    (out ++ outs, st'')

/-- The bytes a connection state still owes its consumer: the rest of the
preamble (unless `hdrdone` already abandoned it) followed by the raw bytes. -/
def pendingBytes (st : ConnSt) : List Nat :=
  (if st.hdrdone then [] else st.pre) ++ st.raw

/-- The connection state right after a successful decode. -/
def mkConn (r : DecResult) : ConnSt := ⟨r.preamble, r.rest, false, none⟩

/-- The fields of an `http.Request` that `Passenger.ServeHTTP` consumes.
`headers` carries the request's header map as a list in iteration order. -/
structure GoRequest where
  method : List Nat
  requestURI : List Nat
  contentLength : Int
  proto : List Nat
  host : List Nat
  remoteAddr : List Nat
  urlPath : List Nat
  rawQuery : List Nat
  headers : EnvL
  body : List Nat
deriving Repr

/-- The `trailingPort` regexp `:([0-9]+)$`: the maximal trailing digit run,
when nonempty and preceded by a colon. -/
def trailPort (h : List Nat) : Option (List Nat) :=
  let ds := (h.reverse.takeWhile (fun c => isDigitB c)).reverse
  if ds ≠ [] ∧ (h.reverse.drop ds.length).head? = some 58 then some ds
  else none

/-- Decimal bytes of an `int` (Go `strconv.Itoa`). -/
def intDec (n : Int) : List Nat :=
  if n < 0 then 45 :: natDec (-n).toNat else natDec n.toNat

/-- Go `strings.ToUpper(strings.Replace(k, "-", "_", -1))` on bytes. -/
def upperUnderscore (k : List Nat) : List Nat :=
  k.map (fun c => if c = 45 then 95 else if 97 ≤ c ∧ c ≤ 122 then c - 32 else c)

/-- The `header` map `Passenger.ServeHTTP` builds: the twelve fixed
variables, `CONTENT_TYPE` when the request declares one, then
`HTTP_<UPPER>` entries for every request header whose name is not already a
key of the map. -/
def buildHeader (req : GoRequest) : EnvL :=
  let port := (trailPort req.host).getD (strBytes "80")
  let base : EnvL :=
    [(kReqMethod, [req.method]),
     (kReqUri, [req.requestURI]),
     (kContentLength, [intDec req.contentLength]),
     (kServerProtocol, [req.proto]),
     (strBytes "SERVER_NAME", [req.host]),
     (strBytes "SERVER_ADDR", [req.remoteAddr]),
     (strBytes "SERVER_PORT", [port]),
     (strBytes "REMOTE_HOST", [req.remoteAddr]),
     (strBytes "REMOTE_ADDR", [req.remoteAddr]),
     (strBytes "SCRIPT_NAME", [req.urlPath]),
     (strBytes "PATH_INFO", [req.urlPath]),
     (strBytes "QUERY_STRING", [req.rawQuery])]
  let base :=
    match lookupEnv req.headers (strBytes "Content-Type") with
    | some (v :: _) => if v ≠ [] then base ++ [(strBytes "CONTENT_TYPE", [v])] else base
    | _ => base
  req.headers.foldl (fun acc kv =>
    if lookupEnv acc kv.1 = none then
      acc ++ [(strBytes "HTTP_" ++ upperUnderscore kv.1, kv.2)]
    else acc) base

/-- What one call of `Passenger.ServeHTTP` does, as seen by its caller:
either a runtime panic (with the panic message) or a completed proxy round
trip carrying the frame-plus-body bytes sent to the peer, and the backend's
response headers and body copied to the caller. -/
inductive PassengerResult where
  | panicked (msg : String)
  | done (sent : List Nat) (respHeaders : EnvL) (respBody : List Nat)
deriving Repr

/-- `Passenger.ServeHTTP`: `net.Dial` failure panics; otherwise the frame
built from `buildHeader` is sent followed by the body; an
`http.ReadResponse` failure panics; otherwise the backend's headers replace
the response writer's headers and the body is streamed. `dial` and `resp`
stand for the outcomes of the two external calls. -/
def passengerServe (req : GoRequest) (dial : Except String Unit)
    (resp : Except String (EnvL × List Nat)) : PassengerResult :=
  match dial with
  | .error e => .panicked e
  | .ok _ =>
    let sent := encodeFrame (buildHeader req) req.body
    match resp with
    | .error e => .panicked e
    | .ok (rh, rb) => .done sent rh rb

/-- The cumulative effect of a record sequence on the loop state. -/
def foldSt (st : ParseSt) (rs : List (List Nat × List Nat)) : ParseSt :=
  rs.foldl (fun s r => updateSt s r.1 r.2) st

/-- The value of the last record with the given key (empty when no record
carries the key) — the `reqMethod`/`reqURI`/`reqProtocol` locals keep only
the last occurrence. -/
def lastValOf (rs : List (List Nat × List Nat)) (key : List Nat) : List Nat :=
  rs.foldl (fun a r => if r.1 = key then r.2 else a) []

/-- Does a parse result denote success. -/
def isOkP : PRes → Bool
  | .ok _ _ => true
  | _ => false

theorem u16_eq {x : Nat} (h : x ≤ 65535) : u16 x = x := Nat.mod_eq_of_lt (by omega)

theorem length_encodeRecs (rs : List (List Nat × List Nat)) :
    (encodeRecs rs).length = recsSize rs := by
  induction rs with
  | nil => rfl
  | cons r rs ih =>
    obtain ⟨k, v⟩ := r
    simp only [encodeRecs, recsSize, List.foldr_cons, List.length_append, le16,
      List.length_cons, List.length_nil]
    simp only [recsSize] at ih
    omega

theorem byteAt_append_right (A : List Nat) : ∀ (B : List Nat) (n : Nat),
    byteAt (A ++ B) (A.length + n) = byteAt B n := by
  induction A with
  | nil => intro B n; simp [byteAt]
  | cons a t ih =>
    intro B n
    have harith : (a :: t).length + n = (t.length + n) + 1 := by
      simp only [List.length_cons]
      omega
    rw [harith]
    show byteAt (t ++ B) (t.length + n) = byteAt B n
    exact ih B n

theorem readU16_app (A C : List Nat) (m : Nat) (hm : m ≤ 65535)
    (hA : A.length ≤ 65534) :
    readU16 (A ++ (le16 m ++ C)) A.length = some m := by
  have h1 : byteAt (A ++ (le16 m ++ C)) A.length = some (u16 m % 256) := by
    have := byteAt_append_right A (le16 m ++ C) 0
    simpa [le16] using this
  have hu : u16 (A.length + 1) = A.length + 1 := u16_eq (by omega)
  have h2 : byteAt (A ++ (le16 m ++ C)) (A.length + 1) = some (u16 m / 256) := by
    have := byteAt_append_right A (le16 m ++ C) 1
    simpa [le16] using this
  unfold readU16 idx
  rw [hu, h1, h2, u16_eq hm]
  show some (m % 256 + 256 * (m / 256)) = some m
  rw [Nat.mod_add_div m 256]

theorem goSlice_app (A B C : List Nat) :
    goSlice (A ++ (B ++ C)) A.length (A.length + B.length) = some B := by
  unfold goSlice
  rw [if_pos]
  · have hd : (A ++ (B ++ C)).drop A.length = B ++ C := List.drop_left A (B ++ C)
    rw [hd]
    have : A.length + B.length - A.length = B.length := by omega
    rw [this, List.take_left]
  · constructor
    · omega
    · simp

theorem parseLoop_spec (rs : List (List Nat × List Nat)) :
    ∀ (pre : List Nat) (st : ParseSt) (fuel : Nat),
      rs ≠ [] →
      (pre ++ encodeRecs rs).length ≤ 65535 →
      rs.length ≤ fuel →
      parseLoop fuel (pre ++ encodeRecs rs) pre.length st = .ok (foldSt st rs) := by
  induction rs with
  | nil => intro _ _ _ hne; exact absurd rfl hne
  | cons r tl ih =>
    intro pre st fuel _ hlen hfuel
    obtain ⟨k, v⟩ := r
    cases fuel with
    | zero => simp at hfuel
    | succ f =>
      set buf := pre ++ encodeRecs ((k, v) :: tl) with hbuf
      have hb1 : buf = pre ++ (le16 k.length ++ (k ++ (le16 v.length ++ (v ++ encodeRecs tl)))) := by
        rw [hbuf]; simp [encodeRecs, List.append_assoc]
      have hb2 : buf = (pre ++ le16 k.length) ++ (k ++ (le16 v.length ++ (v ++ encodeRecs tl))) := by
        rw [hb1]; simp [List.append_assoc]
      have hb3 : buf = (pre ++ le16 k.length ++ k) ++ (le16 v.length ++ (v ++ encodeRecs tl)) := by
        rw [hb1]; simp [List.append_assoc]
      have hb4 : buf = (pre ++ le16 k.length ++ k ++ le16 v.length) ++ (v ++ encodeRecs tl) := by
        rw [hb1]; simp [List.append_assoc]
      have hb5 : buf = (pre ++ le16 k.length ++ k ++ le16 v.length ++ v) ++ encodeRecs tl := by
        rw [hb1]; simp [List.append_assoc]
      have hL : buf.length
          = pre.length + 2 + k.length + 2 + v.length + (encodeRecs tl).length := by
        rw [hb1]; simp [le16]; omega
      have hl65 : buf.length ≤ 65535 := hlen
      have hu1 : u16 (pre.length + 1) = pre.length + 1 := u16_eq (by omega)
      have hu2 : u16 (pre.length + 2) = pre.length + 2 := u16_eq (by omega)
      have hu3 : u16 (pre.length + 2 + k.length) = pre.length + 2 + k.length :=
        u16_eq (by omega)
      have hu4 : u16 (pre.length + 2 + k.length + 1) = pre.length + 2 + k.length + 1 :=
        u16_eq (by omega)
      have hu5 : u16 (pre.length + 2 + k.length + 2) = pre.length + 2 + k.length + 2 :=
        u16_eq (by omega)
      have hu6 : u16 (pre.length + 2 + k.length + 2 + v.length)
          = pre.length + 2 + k.length + 2 + v.length := u16_eq (by omega)
      have h_read1 : readU16 buf pre.length = some k.length := by
        rw [hb1]
        exact readU16_app pre _ k.length (by omega) (by omega)
      have hA2 : (pre ++ le16 k.length).length = pre.length + 2 := by simp [le16]
      have h_slice1 : goSlice buf (pre.length + 2) (pre.length + 2 + k.length) = some k := by
        have h := goSlice_app (pre ++ le16 k.length) k (le16 v.length ++ (v ++ encodeRecs tl))
        rw [hA2] at h
        rw [hb2]
        exact h
      have hA3 : (pre ++ le16 k.length ++ k).length = pre.length + 2 + k.length := by
        simp [le16]; omega
      have h_read2 : readU16 buf (pre.length + 2 + k.length) = some v.length := by
        have h := readU16_app (pre ++ le16 k.length ++ k) (v ++ encodeRecs tl) v.length
          (by omega) (by omega)
        rw [hA3] at h
        rw [hb3]
        exact h
      have hA4 : (pre ++ le16 k.length ++ k ++ le16 v.length).length
          = pre.length + 2 + k.length + 2 := by simp [le16]; omega
      have h_slice2 : goSlice buf (pre.length + 2 + k.length + 2)
          (pre.length + 2 + k.length + 2 + v.length) = some v := by
        have h := goSlice_app (pre ++ le16 k.length ++ k ++ le16 v.length) v (encodeRecs tl)
        rw [hA4] at h
        rw [hb4]
        exact h
      simp only [parseLoop]
      rw [hu1, if_neg (by omega)]
      rw [h_read1]
      dsimp only
      rw [hu2, hu3, if_neg (by omega)]
      rw [h_slice1]
      dsimp only
      rw [hu4, if_neg (by omega)]
      rw [h_read2]
      dsimp only
      rw [hu5, hu6, if_neg (by omega)]
      rw [h_slice2]
      dsimp only
      cases tl with
      | nil =>
        have hi5 : pre.length + 2 + k.length + 2 + v.length ≥ buf.length := by
          simp [encodeRecs] at hL; omega
        rw [if_pos hi5]
        rfl
      | cons r2 tl2 =>
        have htl : (encodeRecs (r2 :: tl2)).length ≥ 4 := by
          obtain ⟨k2, v2⟩ := r2
          simp [encodeRecs, le16]
          omega
        rw [if_neg (by omega)]
        have hcur : pre.length + 2 + k.length + 2 + v.length
            = (pre ++ le16 k.length ++ k ++ le16 v.length ++ v).length := by
          simp [le16]; omega
        rw [hcur, hb5]
        exact ih (pre ++ le16 k.length ++ k ++ le16 v.length ++ v)
          (updateSt st k v) f (by simp) (by rw [← hb5]; omega) (by simp at hfuel ⊢; omega)

theorem len_le_recsSize (rs : List (List Nat × List Nat)) : rs.length ≤ recsSize rs := by
  induction rs with
  | nil => simp [recsSize]
  | cons r tl ih =>
    simp only [recsSize, List.foldr_cons, List.length_cons] at *
    omega

theorem parseFrame_mkFrame (rs : List (List Nat × List Nat)) (body : List Nat)
    (h : recsSize rs ≤ 65535) :
    parseFrame (mkFrame rs body) = .ok (foldSt initSt rs) body := by
  have hhead : headSize (mkFrame rs body) = recsSize rs := by
    show recsSize rs % 256 + 256 * (recsSize rs / 256) = recsSize rs
    exact Nat.mod_add_div _ _
  have hdrop : (mkFrame rs body).drop 4 = encodeRecs rs ++ body := rfl
  have htake : (encodeRecs rs ++ body).take (recsSize rs) = encodeRecs rs :=
    List.take_left' (length_encodeRecs rs)
  have hdrop2 : (encodeRecs rs ++ body).drop (recsSize rs) = body :=
    List.drop_left' (length_encodeRecs rs)
  unfold parseFrame
  rw [hhead, hdrop, if_neg (by simp [length_encodeRecs]), htake, hdrop2]
  cases rs with
  | nil => rfl
  | cons r tl =>
    have hs := parseLoop_spec (r :: tl) [] initSt (recsSize (r :: tl) + 1) (by simp)
      (by simpa [length_encodeRecs] using h)
      (by have := len_le_recsSize (r :: tl); omega)
    simp only [List.nil_append, List.length_nil] at hs
    rw [hs]

theorem updateSt_env (st : ParseSt) (k v : List Nat) :
    (updateSt st k v).env = insertEnv st.env k v := by
  unfold updateSt
  split_ifs <;> rfl

theorem updateSt_p (st : ParseSt) (k v : List Nat) :
    (updateSt st k v).p = if k = kServerProtocol then v else st.p := by
  have d1 : kReqMethod ≠ kServerProtocol := by decide
  have d2 : kReqUri ≠ kServerProtocol := by decide
  simp only [updateSt]
  split_ifs <;> simp_all

theorem updateSt_m (st : ParseSt) (k v : List Nat) :
    (updateSt st k v).m = if k = kReqMethod then v else st.m := by
  have d1 : kReqMethod ≠ kReqUri := by decide
  have d2 : kReqMethod ≠ kServerProtocol := by decide
  simp only [updateSt]
  split_ifs <;> simp_all

theorem updateSt_u (st : ParseSt) (k v : List Nat) :
    (updateSt st k v).u = if k = kReqUri then v else st.u := by
  have d1 : kReqMethod ≠ kReqUri := by decide
  have d2 : kReqUri ≠ kServerProtocol := by decide
  simp only [updateSt]
  split_ifs <;> simp_all

theorem foldSt_env (rs : List (List Nat × List Nat)) : ∀ st : ParseSt,
    (foldSt st rs).env = rs.foldl (fun e r => insertEnv e r.1 r.2) st.env := by
  induction rs with
  | nil => intro st; rfl
  | cons r tl ih =>
    intro st
    show (foldSt (updateSt st r.1 r.2) tl).env = _
    rw [ih, List.foldl_cons, updateSt_env]

theorem foldSt_p (rs : List (List Nat × List Nat)) : ∀ st : ParseSt,
    (foldSt st rs).p = rs.foldl (fun a r => if r.1 = kServerProtocol then r.2 else a) st.p := by
  induction rs with
  | nil => intro st; rfl
  | cons r tl ih =>
    intro st
    show (foldSt (updateSt st r.1 r.2) tl).p = _
    rw [ih, List.foldl_cons, updateSt_p]

theorem foldSt_m (rs : List (List Nat × List Nat)) : ∀ st : ParseSt,
    (foldSt st rs).m = rs.foldl (fun a r => if r.1 = kReqMethod then r.2 else a) st.m := by
  induction rs with
  | nil => intro st; rfl
  | cons r tl ih =>
    intro st
    show (foldSt (updateSt st r.1 r.2) tl).m = _
    rw [ih, List.foldl_cons, updateSt_m]

theorem foldSt_u (rs : List (List Nat × List Nat)) : ∀ st : ParseSt,
    (foldSt st rs).u = rs.foldl (fun a r => if r.1 = kReqUri then r.2 else a) st.u := by
  induction rs with
  | nil => intro st; rfl
  | cons r tl ih =>
    intro st
    show (foldSt (updateSt st r.1 r.2) tl).u = _
    rw [ih, List.foldl_cons, updateSt_u]

theorem insertEnv_absent (e : EnvL) (k v : List Nat) (h : k ∉ keysE e) :
    insertEnv e k v = e ++ [(k, [v])] := by
  induction e with
  | nil => rfl
  | cons x t ih =>
    obtain ⟨k', vs⟩ := x
    simp only [keysE, List.map_cons, List.mem_cons, not_or] at h
    show (if k' = k then (k', vs ++ [v]) :: t else (k', vs) :: insertEnv t k v) = _
    rw [if_neg (fun hh => h.1 hh.symm), ih (by simpa [keysE] using h.2)]
    rfl

theorem insertEnv_last (e : EnvL) (k : List Nat) (a : List (List Nat)) (v : List Nat)
    (h : k ∉ keysE e) :
    insertEnv (e ++ [(k, a)]) k v = e ++ [(k, a ++ [v])] := by
  induction e with
  | nil => simp [insertEnv]
  | cons x t ih =>
    obtain ⟨k', vs⟩ := x
    simp only [keysE, List.map_cons, List.mem_cons, not_or] at h
    show (if k' = k then _ else (k', vs) :: insertEnv (t ++ [(k, a)]) k v) = _
    rw [if_neg (fun hh => h.1 hh.symm), ih (by simpa [keysE] using h.2)]
    rfl

theorem foldIns_onekey (vs : List (List Nat)) : ∀ (e : EnvL) (k : List Nat) (a : List (List Nat)),
    k ∉ keysE e →
    List.foldl (fun e r => insertEnv e r.1 r.2) (e ++ [(k, a)]) (vs.map (fun v => (k, v)))
      = e ++ [(k, a ++ vs)] := by
  induction vs with
  | nil => intro e k a _; simp
  | cons v vs ih =>
    intro e k a h
    simp only [List.map_cons, List.foldl_cons]
    rw [insertEnv_last e k a v h, ih e k (a ++ [v]) h]
    simp

theorem foldIns_flat (l : EnvL) : ∀ e : EnvL,
    (∀ kk ∈ keysE l, kk ∉ keysE e) → (keysE l).Nodup → (∀ p ∈ l, p.2 ≠ []) →
    List.foldl (fun e r => insertEnv e r.1 r.2) e (flatRecs l) = e ++ l := by
  induction l with
  | nil => intro e _ _ _; simp [flatRecs]
  | cons x t ih =>
    intro e hdis hnd hne
    obtain ⟨k, vs⟩ := x
    have hk : k ∉ keysE e := hdis k (by simp [keysE])
    obtain ⟨v, vs', rfl⟩ : ∃ v vs', vs = v :: vs' := by
      cases vs with
      | nil => exact absurd rfl (hne (k, []) (by simp))
      | cons v vs' => exact ⟨v, vs', rfl⟩
    have hknd : k ∉ keysE t := by
      simp only [keysE, List.map_cons, List.nodup_cons] at hnd
      exact hnd.1
    have hndt : (keysE t).Nodup := by
      simp only [keysE, List.map_cons, List.nodup_cons] at hnd
      exact hnd.2
    show List.foldl (fun e r => insertEnv e r.1 r.2) e (flatRecs ((k, v :: vs') :: t)) = _
    have hflat : flatRecs ((k, v :: vs') :: t)
        = ((v :: vs').map (fun w => (k, w))) ++ flatRecs t := by
      simp [flatRecs]
    rw [hflat, List.foldl_append]
    have h1 : List.foldl (fun e r => insertEnv e r.1 r.2) e ((v :: vs').map (fun w => (k, w)))
        = e ++ [(k, v :: vs')] := by
      simp only [List.map_cons, List.foldl_cons]
      rw [insertEnv_absent e k v hk, foldIns_onekey vs' e k [v] hk]
      rfl
    rw [h1]
    rw [ih (e ++ [(k, v :: vs')])
      (by
        intro kk hkk
        have h1 : kk ∉ keysE e := hdis kk (List.mem_cons_of_mem _ hkk)
        have h2 : kk ≠ k := fun hh => hknd (hh ▸ hkk)
        simp only [keysE, List.map_append, List.map_cons, List.map_nil, List.mem_append,
          List.mem_singleton, not_or]
        simp only [keysE] at h1
        exact ⟨h1, h2⟩)
      hndt
      (fun p hp => hne p (List.mem_cons_of_mem _ hp))]
    simp

theorem frameSizeF_go (rs : List (List Nat × List Nat)) : ∀ s : Nat,
    s + recsSize rs ≤ 65535 →
    List.foldl (fun s r =>
        u16 (u16 (s + u16 (u16 r.1.length + 2)) + u16 (u16 r.2.length + 2))) s rs
      = s + recsSize rs := by
  induction rs with
  | nil => intro s _; simp [recsSize]
  | cons r tl ih =>
    intro s h
    obtain ⟨k, v⟩ := r
    have hsz : recsSize ((k, v) :: tl) = 4 + k.length + v.length + recsSize tl := by
      simp [recsSize]
    rw [List.foldl_cons]
    dsimp only
    rw [u16_eq (show k.length ≤ 65535 by omega),
        u16_eq (show k.length + 2 ≤ 65535 by omega),
        u16_eq (show s + (k.length + 2) ≤ 65535 by omega),
        u16_eq (show v.length ≤ 65535 by omega),
        u16_eq (show v.length + 2 ≤ 65535 by omega),
        u16_eq (show s + (k.length + 2) + (v.length + 2) ≤ 65535 by omega)]
    rw [ih (s + (k.length + 2) + (v.length + 2)) (by omega)]
    omega

theorem frameSizeF_eq (rs : List (List Nat × List Nat)) (h : recsSize rs ≤ 65535) :
    frameSizeF rs = recsSize rs := by
  unfold frameSizeF
  rw [frameSizeF_go rs 0 (by omega)]
  omega

theorem encodeFrame_eq_mkFrame (l : EnvL) (body : List Nat)
    (h : recsSize (flatRecs l) ≤ 65535) :
    encodeFrame l body = mkFrame (flatRecs l) body := by
  unfold encodeFrame mkFrame
  rw [frameSizeF_eq (flatRecs l) h]

theorem recsSize_eq_sum (rs : List (List Nat × List Nat)) :
    recsSize rs = (rs.map (fun r => 4 + r.1.length + r.2.length)).sum := by
  induction rs with
  | nil => rfl
  | cons r tl ih => simp [recsSize, ih]; simp [recsSize] at ih; omega

theorem recsSize_perm {rs₁ rs₂ : List (List Nat × List Nat)} (h : rs₁.Perm rs₂) :
    recsSize rs₁ = recsSize rs₂ := by
  rw [recsSize_eq_sum, recsSize_eq_sum]
  exact (h.map _).sum_eq

theorem lookupEnv_perm {l₁ l₂ : EnvL} (hp : l₁.Perm l₂) :
    (keysE l₂).Nodup → ∀ k, lookupEnv l₁ k = lookupEnv l₂ k := by
  induction hp with
  | nil => intro _ _; rfl
  | cons x hp ih =>
    intro hnd k
    obtain ⟨k', vs⟩ := x
    show (if k' = k then some vs else _) = (if k' = k then some vs else _)
    by_cases hh : k' = k
    · rw [if_pos hh, if_pos hh]
    · rw [if_neg hh, if_neg hh]
      exact ih (by simp only [keysE, List.map_cons, List.nodup_cons] at hnd; exact hnd.2) k
  | swap x y t =>
    intro hnd k
    obtain ⟨kx, vx⟩ := x
    obtain ⟨ky, vy⟩ := y
    have hxy : kx ≠ ky := by
      simp only [keysE, List.map_cons, List.nodup_cons, List.mem_cons, not_or] at hnd
      exact hnd.1.1
    show (if ky = k then some vy else if kx = k then some vx else lookupEnv t k)
        = (if kx = k then some vx else if ky = k then some vy else lookupEnv t k)
    by_cases h1 : kx = k
    · rw [if_neg (fun h2 : ky = k => hxy (h1.trans h2.symm)), if_pos h1, if_pos h1]
    · rw [if_neg h1, if_neg h1]
  | trans p₁ p₂ ih₁ ih₂ =>
    intro hnd k
    have hnd₂ := (p₂.map Prod.fst).nodup_iff.mpr hnd
    rw [ih₁ hnd₂ k, ih₂ hnd k]

theorem decodeFrame_mkFrame (rs : List (List Nat × List Nat)) (body : List Nat)
    (ord : List (List Nat)) (h : recsSize rs ≤ 65535) :
    decodeFrame (mkFrame rs body) ord =
      (if (foldSt initSt rs).p = [] then
        ⟨.framingErr protoMsg, (foldSt initSt rs).env, [], [], true, false⟩
      else
        ⟨.ok, (foldSt initSt rs).env,
          reqLineOf (foldSt initSt rs).m (foldSt initSt rs).u (foldSt initSt rs).p
            ++ headerBytes (foldSt initSt rs).env ord ++ crlf,
          body, false, true⟩) := by
  unfold decodeFrame
  rw [parseFrame_mkFrame rs body h]

theorem foldSt_p_init (rs : List (List Nat × List Nat)) :
    (foldSt initSt rs).p = lastValOf rs kServerProtocol := by
  rw [foldSt_p]; rfl

theorem foldSt_m_init (rs : List (List Nat × List Nat)) :
    (foldSt initSt rs).m = lastValOf rs kReqMethod := by
  rw [foldSt_m]; rfl

theorem foldSt_u_init (rs : List (List Nat × List Nat)) :
    (foldSt initSt rs).u = lastValOf rs kReqUri := by
  rw [foldSt_u]; rfl

theorem connRead_err (pre raw : List Nat) (hd : Bool) (e : GoErr) (n : Nat) :
    connRead ⟨pre, raw, hd, some e⟩ n = ([], some e, ⟨pre, raw, hd, some e⟩) := rfl

theorem rawRead_eq (raw : List Nat) (n : Nat) (hn : ¬ n = 0) :
    rawRead raw n = if raw = [] then ([], [], some .eof)
      else (raw.take n, raw.drop n, none) := by
  unfold rawRead
  rw [if_neg hn]

theorem connRead_raw (pre raw : List Nat) (n : Nat) (hn : ¬ n = 0) :
    connRead ⟨pre, raw, true, none⟩ n =
      if raw = [] then ([], some .eof, ⟨pre, [], true, some .eof⟩)
      else (raw.take n, none, ⟨pre, raw.drop n, true, none⟩) := by
  show rawStep ⟨pre, raw, true, none⟩ n = _
  unfold rawStep
  rw [rawRead_eq raw n hn]
  by_cases hr : raw = []
  · subst hr; simp
  · rw [if_neg hr, if_neg hr]

theorem connRead_buf_empty (raw : List Nat) (n : Nat) (hn : ¬ n = 0) :
    connRead ⟨[], raw, false, none⟩ n =
      if raw = [] then ([], some .eof, ⟨[], [], true, some .eof⟩)
      else (raw.take n, none, ⟨[], raw.drop n, true, none⟩) := by
  show (let r := bufferRead [] n
    if r.1.length = 0 ∨ r.2.2 then rawStep ⟨r.2.1, raw, true, none⟩ n
    else (r.1, none, ⟨r.2.1, raw, false, none⟩)) = _
  have hb : bufferRead [] n = ([], [], true) := by
    unfold bufferRead
    rw [if_neg hn, if_pos rfl]
  rw [hb]
  show rawStep ⟨[], raw, true, none⟩ n = _
  unfold rawStep
  rw [rawRead_eq raw n hn]
  by_cases hr : raw = []
  · subst hr; simp
  · rw [if_neg hr, if_neg hr]

theorem connRead_buf (pre raw : List Nat) (n : Nat) (hn : ¬ n = 0) (hpre : pre ≠ []) :
    connRead ⟨pre, raw, false, none⟩ n
      = (pre.take n, none, ⟨pre.drop n, raw, false, none⟩) := by
  show (let r := bufferRead pre n
    if r.1.length = 0 ∨ r.2.2 then rawStep ⟨r.2.1, raw, true, none⟩ n
    else (r.1, none, ⟨r.2.1, raw, false, none⟩)) = _
  have hb : bufferRead pre n = (pre.take n, pre.drop n, false) := by
    unfold bufferRead
    rw [if_neg hn, if_neg hpre]
  rw [hb]
  have hlen : ¬ ((pre.take n).length = 0 ∨ (false : Bool) = true) := by
    simp only [List.length_take, Bool.false_eq_true, or_false]
    have : 0 < pre.length := List.length_pos.mpr hpre
    omega
  show (if (pre.take n).length = 0 ∨ (false : Bool) = true then _ else _) = _
  rw [if_neg hlen]

theorem connRead_delivery (st : ConnSt) (n : Nat) (hn : 0 < n) :
    (connRead st n).1 ++ pendingBytes (connRead st n).2.2 = pendingBytes st := by
  obtain ⟨pre, raw, hd, ce⟩ := st
  have hn' : ¬ n = 0 := by omega
  cases ce with
  | some e => rw [connRead_err]; rfl
  | none =>
    cases hd with
    | true =>
      rw [connRead_raw pre raw n hn']
      by_cases hr : raw = []
      · subst hr; simp [pendingBytes]
      · rw [if_neg hr]
        simp [pendingBytes, List.take_append_drop]
    | false =>
      cases hpre : pre with
      | nil =>
        rw [connRead_buf_empty raw n hn']
        by_cases hr : raw = []
        · subst hr; simp [pendingBytes]
        · rw [if_neg hr]
          simp [pendingBytes, List.take_append_drop]
      | cons a t =>
        rw [connRead_buf (a :: t) raw n hn' (by simp)]
        simp only [pendingBytes]
        show (a :: t).take n ++ ((a :: t).drop n ++ raw) = (a :: t) ++ raw
        rw [← List.append_assoc, List.take_append_drop]

theorem runReads_delivery (sizes : List Nat) : ∀ st : ConnSt,
    (∀ n ∈ sizes, 0 < n) →
    (runReads sizes st).1 ++ pendingBytes (runReads sizes st).2 = pendingBytes st := by
  induction sizes with
  | nil => intro st _; simp [runReads]
  | cons n ns ih =>
    intro st hall
    have h1 := connRead_delivery st n (hall n (by simp))
    rcases hc : connRead st n with ⟨o, e, st'⟩
    rw [hc] at h1
    have h2 := ih st' (fun m hm => hall m (by simp [hm]))
    rcases hr : runReads ns st' with ⟨outs, st''⟩
    rw [hr] at h2
    simp only [runReads, hc, hr]
    simp only at h1 h2 ⊢
    rw [List.append_assoc, h2]
    exact h1

theorem frameSizeF_single (k v : List Nat) :
    frameSizeF [(k, v)] = u16 (u16 (0 + u16 (u16 k.length + 2)) + u16 (u16 v.length + 2)) := rfl

theorem parseFrame_zero (s : List Nat) (h : headSize s = 0) :
    parseFrame s = .ok initSt (s.drop 4) := by
  simp only [parseFrame]
  rw [h]
  rw [if_neg (Nat.not_lt_zero _)]
  rw [List.take_zero, List.drop_zero]
  rfl

/-- C1 (amended): for every environment with unique keys, at least one value
per key, and a true encoded size that fits `uint16`, encoding with the
`Passenger.ServeHTTP` frame builder in any key emission order and decoding
with the `Listener.Accept` parse loop returns success, exactly the original
body as the unconsumed stream, and an environment that equals the original
as a map (pointwise `lookupEnv`), independently of the emission order. -/
theorem claim1_roundtrip (l l' : EnvL) (body : List Nat)
    (hnd : (keysE l).Nodup) (hne : ∀ p ∈ l, p.2 ≠ [])
    (hsz : recsSize (flatRecs l) ≤ 65535) (hp : l'.Perm l) :
    isOkP (parseFrame (encodeFrame l body)) = true ∧
    envOfP (parseFrame (encodeFrame l body)) = l ∧
    restOfP (parseFrame (encodeFrame l body)) = body ∧
    isOkP (parseFrame (encodeFrame l' body)) = true ∧
    restOfP (parseFrame (encodeFrame l' body)) = body ∧
    (∀ k, lookupEnv (envOfP (parseFrame (encodeFrame l' body))) k = lookupEnv l k) := by
  have henv : ∀ (m : EnvL), (keysE m).Nodup → (∀ p ∈ m, p.2 ≠ []) →
      recsSize (flatRecs m) ≤ 65535 →
      parseFrame (encodeFrame m body) = .ok (foldSt initSt (flatRecs m)) body ∧
      (foldSt initSt (flatRecs m)).env = m := by
    intro m hnd' hne' hsz'
    constructor
    · rw [encodeFrame_eq_mkFrame m body hsz']
      exact parseFrame_mkFrame (flatRecs m) body hsz'
    · rw [foldSt_env]
      have := foldIns_flat m [] (by intro kk _; simp [keysE]) hnd' hne'
      simpa using this
  have hnd' : (keysE l').Nodup := (hp.map Prod.fst).nodup_iff.mpr hnd
  have hne' : ∀ p ∈ l', p.2 ≠ [] := fun p hpp => hne p (hp.subset hpp)
  have hflat : (flatRecs l').Perm (flatRecs l) := hp.flatMap_right _
  have hsz' : recsSize (flatRecs l') ≤ 65535 := by
    rw [recsSize_perm hflat]; exact hsz
  obtain ⟨hl1, hl2⟩ := henv l hnd hne hsz
  obtain ⟨hl1', hl2'⟩ := henv l' hnd' hne' hsz'
  refine ⟨?_, ?_, ?_, ?_, ?_, ?_⟩
  · rw [hl1]; rfl
  · rw [hl1]; exact hl2
  · rw [hl1]; rfl
  · rw [hl1']; rfl
  · rw [hl1']; rfl
  · intro k
    rw [hl1']
    show lookupEnv (foldSt initSt (flatRecs l')).env k = _
    rw [hl2']
    exact lookupEnv_perm hp hnd k

/-- Witness for C1: a two-key environment with a repeated `HTTP_COOKIE`
variable and a body, emitted in two different key orders, round-trips. -/
theorem claim1_roundtrip_witness :
    isOkP (parseFrame (encodeFrame
        [(strBytes "HTTP_COOKIE", [strBytes "a=1", strBytes "b=2"]),
          (strBytes "HOST", [strBytes "h"])] (strBytes "foo=bar1"))) = true ∧
    envOfP (parseFrame (encodeFrame
        [(strBytes "HTTP_COOKIE", [strBytes "a=1", strBytes "b=2"]),
          (strBytes "HOST", [strBytes "h"])] (strBytes "foo=bar1")))
      = [(strBytes "HTTP_COOKIE", [strBytes "a=1", strBytes "b=2"]),
          (strBytes "HOST", [strBytes "h"])] ∧
    restOfP (parseFrame (encodeFrame
        [(strBytes "HTTP_COOKIE", [strBytes "a=1", strBytes "b=2"]),
          (strBytes "HOST", [strBytes "h"])] (strBytes "foo=bar1")))
      = strBytes "foo=bar1" ∧
    isOkP (parseFrame (encodeFrame
        [(strBytes "HOST", [strBytes "h"]),
          (strBytes "HTTP_COOKIE", [strBytes "a=1", strBytes "b=2"])] (strBytes "foo=bar1")))
      = true ∧
    restOfP (parseFrame (encodeFrame
        [(strBytes "HOST", [strBytes "h"]),
          (strBytes "HTTP_COOKIE", [strBytes "a=1", strBytes "b=2"])] (strBytes "foo=bar1")))
      = strBytes "foo=bar1" ∧
    (∀ k, lookupEnv (envOfP (parseFrame (encodeFrame
        [(strBytes "HOST", [strBytes "h"]),
          (strBytes "HTTP_COOKIE", [strBytes "a=1", strBytes "b=2"])] (strBytes "foo=bar1")))) k
      = lookupEnv [(strBytes "HTTP_COOKIE", [strBytes "a=1", strBytes "b=2"]),
          (strBytes "HOST", [strBytes "h"])] k) :=
  claim1_roundtrip
    [(strBytes "HTTP_COOKIE", [strBytes "a=1", strBytes "b=2"]),
      (strBytes "HOST", [strBytes "h"])]
    [(strBytes "HOST", [strBytes "h"]),
      (strBytes "HTTP_COOKIE", [strBytes "a=1", strBytes "b=2"])]
    (strBytes "foo=bar1") (by decide) (by decide) (by decide) (by decide)

/-- Counterexample for C1 as frozen: the round trip fails for a key whose
value list is empty (the encoder emits nothing for it), and for an
environment whose true encoded size exceeds `uint16` (a single 65532-byte
key wraps the declared block size to 0, so decode sees an empty block). -/
theorem claim1_counterexample :
    (parseFrame (encodeFrame [([65], [])] [66]) = .ok initSt [66] ∧
      lookupEnv (envOfP (parseFrame (encodeFrame [([65], [])] [66]))) [65] = none ∧
      lookupEnv [([65], ([] : List (List Nat)))] [65] = some []) ∧
    (lookupEnv (envOfP (parseFrame (encodeFrame
        [(List.replicate 65532 65, [([] : List Nat)])] []))) (List.replicate 65532 65) = none ∧
      lookupEnv [(List.replicate 65532 65, [([] : List Nat)])] (List.replicate 65532 65)
        = some [[]]) := by
  constructor
  · exact ⟨rfl, rfl, rfl⟩
  · have hflat : flatRecs [(List.replicate 65532 (65 : Nat), [([] : List Nat)])]
        = [(List.replicate 65532 65, [])] := rfl
    have hsz : frameSizeF [((List.replicate 65532 (65 : Nat)), ([] : List Nat))] = 0 := by
      rw [frameSizeF_single, List.length_replicate]
      norm_num [u16]
    constructor
    · unfold encodeFrame
      rw [hflat, hsz]
      rw [parseFrame_zero _ (by rfl)]
      rfl
    · show (if List.replicate 65532 65 = List.replicate 65532 65 then some [[]]
        else lookupEnv [] (List.replicate 65532 65)) = some [[]]
      rw [if_pos rfl]

/-- C2: the bounds checks of the record-scan loop are performed in `uint16`
arithmetic, so a declared key length of 65535 at cursor 2 wraps
(`2 + 65535 ≡ 1 (mod 2^16)`), passes the `i+kl > len` guard, and the
subsequent slice `envbuf[2:1]` panics instead of failing with the
"vars index out of range" FramingError. -/
theorem claim2_wraparound_panic :
    decodeFrame [0, 4, 0, 0, 255, 255, 0, 0] [] = ⟨.panicked, [], [], [], false, false⟩ ∧
    (decodeFrame [0, 4, 0, 0, 255, 255, 0, 0] []).outcome ≠ .framingErr idxMsg := by
  decide

/-- C5: on the failure paths the decode task records `c.err` and returns
without ever sending on the one-shot channel `c.readych` (`signaled =
false`); only the success path signals.  A consumer blocked in `Read` on
`<-c.readych` before the failure is recorded therefore waits forever. -/
theorem claim5_signal_only_on_success :
    (decodeFrame [0, 0, 0, 0] []).signaled = false ∧
    (decodeFrame [0, 0, 0, 0] []).outcome = .framingErr protoMsg ∧
    (decodeFrame (mkFrame [(kServerProtocol, strBytes "HTTP/1.0")] [])
        [kServerProtocol]).signaled = true := by
  decide

/-- C3 (amended): for every well-formed frame whose last `SERVER_PROTOCOL`
value is nonempty, the synthesized stream's first line is
`"<METHOD> <URI> <SERVER_PROTOCOL>\r\n"` — the protocol value the client
declared in the frame, not the fixed literal `HTTP/1.0`. -/
theorem claim3_declared_protocol (rs : List (List Nat × List Nat)) (body : List Nat)
    (ord : List (List Nat)) (h1 : recsSize rs ≤ 65535)
    (h2 : lastValOf rs kServerProtocol ≠ []) :
    (decodeFrame (mkFrame rs body) ord).outcome = .ok ∧
    (decodeFrame (mkFrame rs body) ord).preamble.take
        (reqLineOf (lastValOf rs kReqMethod) (lastValOf rs kReqUri)
          (lastValOf rs kServerProtocol)).length
      = reqLineOf (lastValOf rs kReqMethod) (lastValOf rs kReqUri)
          (lastValOf rs kServerProtocol) := by
  rw [decodeFrame_mkFrame rs body ord h1, if_neg (by rw [foldSt_p_init]; exact h2)]
  refine ⟨rfl, ?_⟩
  dsimp only
  rw [foldSt_p_init, foldSt_m_init, foldSt_u_init, List.append_assoc]
  exact List.take_left _ _

/-- Witness for C3: a frame declaring `SERVER_PROTOCOL = "HTTP/1.1"` yields
a first line carrying `HTTP/1.1`. -/
theorem claim3_declared_protocol_witness :
    (decodeFrame (mkFrame [(kReqMethod, strBytes "GET"), (kReqUri, strBytes "/w"),
        (kServerProtocol, strBytes "HTTP/1.1")] []) []).outcome = .ok ∧
    (decodeFrame (mkFrame [(kReqMethod, strBytes "GET"), (kReqUri, strBytes "/w"),
        (kServerProtocol, strBytes "HTTP/1.1")] []) []).preamble.take
        (reqLineOf (lastValOf [(kReqMethod, strBytes "GET"), (kReqUri, strBytes "/w"),
            (kServerProtocol, strBytes "HTTP/1.1")] kReqMethod)
          (lastValOf [(kReqMethod, strBytes "GET"), (kReqUri, strBytes "/w"),
            (kServerProtocol, strBytes "HTTP/1.1")] kReqUri)
          (lastValOf [(kReqMethod, strBytes "GET"), (kReqUri, strBytes "/w"),
            (kServerProtocol, strBytes "HTTP/1.1")] kServerProtocol)).length
      = reqLineOf (lastValOf [(kReqMethod, strBytes "GET"), (kReqUri, strBytes "/w"),
            (kServerProtocol, strBytes "HTTP/1.1")] kReqMethod)
          (lastValOf [(kReqMethod, strBytes "GET"), (kReqUri, strBytes "/w"),
            (kServerProtocol, strBytes "HTTP/1.1")] kReqUri)
          (lastValOf [(kReqMethod, strBytes "GET"), (kReqUri, strBytes "/w"),
            (kServerProtocol, strBytes "HTTP/1.1")] kServerProtocol) :=
  claim3_declared_protocol
    [(kReqMethod, strBytes "GET"), (kReqUri, strBytes "/w"),
      (kServerProtocol, strBytes "HTTP/1.1")] [] [] (by decide) (by decide)

/-- Counterexample for C3 as frozen: a valid frame declaring
`SERVER_PROTOCOL = "HTTP/9.9"` produces the first line
`"GET / HTTP/9.9\r\n"`, not `"GET / HTTP/1.0\r\n"`. -/
theorem claim3_counterexample :
    (decodeFrame (mkFrame [(kServerProtocol, strBytes "HTTP/9.9"),
        (kReqMethod, strBytes "GET"), (kReqUri, strBytes "/")] [])
        [kServerProtocol, kReqMethod, kReqUri]).outcome = .ok ∧
    (decodeFrame (mkFrame [(kServerProtocol, strBytes "HTTP/9.9"),
        (kReqMethod, strBytes "GET"), (kReqUri, strBytes "/")] [])
        [kServerProtocol, kReqMethod, kReqUri]).preamble.take 16
      = strBytes "GET / HTTP/9.9\r\n" ∧
    (decodeFrame (mkFrame [(kServerProtocol, strBytes "HTTP/9.9"),
        (kReqMethod, strBytes "GET"), (kReqUri, strBytes "/")] [])
        [kServerProtocol, kReqMethod, kReqUri]).preamble.take 16
      ≠ strBytes "GET / HTTP/1.0\r\n" := by
  decide

/-- C4 (amended): decode does not pre-read the request body.  For every
well-formed frame with a protocol, the synthesized preamble is exactly the
request line, the header lines and the terminating blank line, and the
entire stream after the block — the body `CONTENT_LENGTH` describes
included — is left unconsumed in `rest` for the raw read phase. -/
theorem claim4_body_not_preread (rs : List (List Nat × List Nat)) (body : List Nat)
    (ord : List (List Nat)) (h1 : recsSize rs ≤ 65535)
    (h2 : lastValOf rs kServerProtocol ≠ []) :
    (decodeFrame (mkFrame rs body) ord).outcome = .ok ∧
    (decodeFrame (mkFrame rs body) ord).rest = body ∧
    (decodeFrame (mkFrame rs body) ord).preamble
      = reqLineOf (lastValOf rs kReqMethod) (lastValOf rs kReqUri)
          (lastValOf rs kServerProtocol)
        ++ headerBytes (foldSt initSt rs).env ord ++ crlf := by
  rw [decodeFrame_mkFrame rs body ord h1, if_neg (by rw [foldSt_p_init]; exact h2)]
  refine ⟨rfl, rfl, ?_⟩
  rw [foldSt_p_init, foldSt_m_init, foldSt_u_init]

/-- Witness for C4: a frame with `CONTENT_LENGTH = "3"` and a three-byte
body; the body stays in `rest`. -/
theorem claim4_body_not_preread_witness :
    (decodeFrame (mkFrame [(kServerProtocol, strBytes "HTTP/1.1"),
        (kContentLength, strBytes "3")] [97, 98, 99])
        [kContentLength, kServerProtocol]).outcome = .ok ∧
    (decodeFrame (mkFrame [(kServerProtocol, strBytes "HTTP/1.1"),
        (kContentLength, strBytes "3")] [97, 98, 99])
        [kContentLength, kServerProtocol]).rest = [97, 98, 99] ∧
    (decodeFrame (mkFrame [(kServerProtocol, strBytes "HTTP/1.1"),
        (kContentLength, strBytes "3")] [97, 98, 99])
        [kContentLength, kServerProtocol]).preamble
      = reqLineOf (lastValOf [(kServerProtocol, strBytes "HTTP/1.1"),
            (kContentLength, strBytes "3")] kReqMethod)
          (lastValOf [(kServerProtocol, strBytes "HTTP/1.1"),
            (kContentLength, strBytes "3")] kReqUri)
          (lastValOf [(kServerProtocol, strBytes "HTTP/1.1"),
            (kContentLength, strBytes "3")] kServerProtocol)
        ++ headerBytes (foldSt initSt [(kServerProtocol, strBytes "HTTP/1.1"),
            (kContentLength, strBytes "3")]).env [kContentLength, kServerProtocol] ++ crlf :=
  claim4_body_not_preread
    [(kServerProtocol, strBytes "HTTP/1.1"), (kContentLength, strBytes "3")]
    [97, 98, 99] [kContentLength, kServerProtocol] (by decide) (by decide)

/-- Counterexample for C4 as frozen: for the spec's own example frame
(`POST /foo`, `CONTENT_LENGTH = 8`, body `"foo=bar1"`) the decode task
leaves all eight body bytes on the stream (`rest = "foo=bar1"`) and the
preamble buffer ends at the blank line — no body byte is copied into it. -/
theorem claim4_counterexample :
    (decodeFrame (mkFrame [(kReqMethod, strBytes "POST"), (kReqUri, strBytes "/foo"),
        (kServerProtocol, strBytes "HTTP/1.1"), (kContentLength, strBytes "8")]
        (strBytes "foo=bar1"))
        [kReqMethod, kReqUri, kServerProtocol, kContentLength]).outcome = .ok ∧
    (decodeFrame (mkFrame [(kReqMethod, strBytes "POST"), (kReqUri, strBytes "/foo"),
        (kServerProtocol, strBytes "HTTP/1.1"), (kContentLength, strBytes "8")]
        (strBytes "foo=bar1"))
        [kReqMethod, kReqUri, kServerProtocol, kContentLength]).rest
      = strBytes "foo=bar1" ∧
    (decodeFrame (mkFrame [(kReqMethod, strBytes "POST"), (kReqUri, strBytes "/foo"),
        (kServerProtocol, strBytes "HTTP/1.1"), (kContentLength, strBytes "8")]
        (strBytes "foo=bar1"))
        [kReqMethod, kReqUri, kServerProtocol, kContentLength]).preamble
      = strBytes "POST /foo HTTP/1.1\r\nREQUEST_METHOD: POST\r\nREQUEST_URI: /foo\r\nSERVER_PROTOCOL: HTTP/1.1\r\nContent-Length: 8\r\n\r\n" := by
  decide

/-- C6: a well-formed frame in which `SERVER_PROTOCOL` is absent, or whose
last `SERVER_PROTOCOL` value is the empty string, fails decode with exactly
the "no protocol specified" FramingError; the connection is closed and no
preamble byte is produced. -/
theorem claim6_no_protocol (rs : List (List Nat × List Nat)) (body : List Nat)
    (ord : List (List Nat)) (h1 : recsSize rs ≤ 65535)
    (h2 : lastValOf rs kServerProtocol = []) :
    decodeFrame (mkFrame rs body) ord
      = ⟨.framingErr protoMsg, (foldSt initSt rs).env, [], [], true, false⟩ := by
  rw [decodeFrame_mkFrame rs body ord h1, if_pos (by rw [foldSt_p_init]; exact h2)]

/-- Witness for C6: a frame carrying only `REQUEST_METHOD` fails with the
"no protocol specified" error, closed, with an empty preamble. -/
theorem claim6_no_protocol_witness :
    decodeFrame (mkFrame [(kReqMethod, strBytes "GET")] [1, 2]) []
      = ⟨.framingErr protoMsg,
          (foldSt initSt [(kReqMethod, strBytes "GET")]).env, [], [], true, false⟩ :=
  claim6_no_protocol [(kReqMethod, strBytes "GET")] [1, 2] [] (by decide) (by decide)

/-- C7 (amended): for every successfully decoded frame and every sequence
of `Read` calls with positive buffer sizes, the bytes delivered to the
consumer plus the bytes the connection still owes equal exactly the
synthesized preamble followed by the post-frame raw bytes — each preamble
byte is delivered exactly once, in order, before any raw byte, and no
wire-framing byte (head or block) can ever be delivered because decode
consumed them from the stream. -/
theorem claim7_delivery (sizes : List Nat) (stream : List Nat) (ord : List (List Nat))
    (hpos : ∀ n ∈ sizes, 0 < n) (_hok : (decodeFrame stream ord).outcome = .ok) :
    (runReads sizes (mkConn (decodeFrame stream ord))).1
        ++ pendingBytes (runReads sizes (mkConn (decodeFrame stream ord))).2
      = (decodeFrame stream ord).preamble ++ (decodeFrame stream ord).rest := by
  rw [runReads_delivery sizes (mkConn (decodeFrame stream ord)) hpos]
  rfl

/-- Witness for C7: three reads of sizes 3, 5 and 100 on a decoded
connection deliver the preamble and raw bytes exactly once. -/
theorem claim7_delivery_witness :
    (runReads [3, 5, 100] (mkConn (decodeFrame
        (mkFrame [(kServerProtocol, strBytes "HTTP/1.0")] [7, 8]) [kServerProtocol]))).1
        ++ pendingBytes (runReads [3, 5, 100] (mkConn (decodeFrame
        (mkFrame [(kServerProtocol, strBytes "HTTP/1.0")] [7, 8]) [kServerProtocol]))).2
      = (decodeFrame (mkFrame [(kServerProtocol, strBytes "HTTP/1.0")] [7, 8])
          [kServerProtocol]).preamble
        ++ (decodeFrame (mkFrame [(kServerProtocol, strBytes "HTTP/1.0")] [7, 8])
          [kServerProtocol]).rest :=
  claim7_delivery [3, 5, 100]
    (mkFrame [(kServerProtocol, strBytes "HTTP/1.0")] [7, 8]) [kServerProtocol]
    (by decide) (by decide)

/-- Counterexample for C7 as frozen: a zero-length `Read` makes
`bytes.Buffer.Read` return `(0, nil)`, the `n == 0` test sets `hdrdone`,
and the rest of the preamble is silently abandoned: on a valid frame with a
nonempty preamble, the reads `[0, 200]` deliver only the raw byte `99`. -/
theorem claim7_counterexample :
    (decodeFrame (mkFrame [(kServerProtocol, strBytes "HTTP/1.1"),
        (kReqMethod, strBytes "GET"), (kReqUri, strBytes "/")] [99])
        [kServerProtocol, kReqMethod, kReqUri]).outcome = .ok ∧
    (decodeFrame (mkFrame [(kServerProtocol, strBytes "HTTP/1.1"),
        (kReqMethod, strBytes "GET"), (kReqUri, strBytes "/")] [99])
        [kServerProtocol, kReqMethod, kReqUri]).preamble ≠ [] ∧
    (runReads [0, 200] (mkConn (decodeFrame (mkFrame
        [(kServerProtocol, strBytes "HTTP/1.1"), (kReqMethod, strBytes "GET"),
          (kReqUri, strBytes "/")] [99])
        [kServerProtocol, kReqMethod, kReqUri]))).1 = [99] := by
  decide

/-- C8 (amended): when the dial or the backend-response read fails,
`Passenger.ServeHTTP` panics with the error message instead of returning an
explicit failure result; when both succeed it sends exactly the encoded
frame followed by the body and copies the backend's headers and body to the
caller. -/
theorem claim8_panics_on_failure (req : GoRequest) (msg : String)
    (resp : Except String (EnvL × List Nat)) (rh : EnvL) (rb : List Nat) :
    passengerServe req (.error msg) resp = .panicked msg ∧
    passengerServe req (.ok ()) (.error msg) = .panicked msg ∧
    passengerServe req (.ok ()) (.ok (rh, rb))
      = .done (encodeFrame (buildHeader req) req.body) rh rb :=
  ⟨rfl, rfl, rfl⟩

/-- Counterexample for C8 as frozen: a failed dial produces a runtime panic
carrying the dial error, not an explicit failure result. -/
theorem claim8_counterexample :
    passengerServe
        ⟨strBytes "GET", strBytes "/", 0, strBytes "HTTP/1.1", strBytes "example.com",
          strBytes "127.0.0.1:40000", strBytes "/", [], [], []⟩
        (.error "dial tcp 127.0.0.1:3031: connection refused") (.ok ([], []))
      = .panicked "dial tcp 127.0.0.1:3031: connection refused" := rfl

/-- C9 (amended): the synthesized preamble is a function of the frame bytes
and the map iteration order: it is the request line, then the header-line
groups of the iterated keys in iteration order, then the blank line.  Two
runs over the same frame bytes whose iteration orders are permutations of
each other produce the same multiset of per-key line groups, but not
necessarily the same bytes. -/
theorem claim9_order_dependent (stream : List Nat) (st : ParseSt) (rest : List Nat)
    (ord₁ ord₂ : List (List Nat)) (hpf : parseFrame stream = .ok st rest)
    (hp : st.p ≠ []) (hperm : ord₁.Perm ord₂) :
    (decodeFrame stream ord₁).preamble
        = reqLineOf st.m st.u st.p ++ headerBytes st.env ord₁ ++ crlf ∧
    (decodeFrame stream ord₂).preamble
        = reqLineOf st.m st.u st.p ++ headerBytes st.env ord₂ ++ crlf ∧
    (hdrGroups st.env ord₁).Perm (hdrGroups st.env ord₂) := by
  unfold decodeFrame
  rw [hpf]
  dsimp only
  rw [if_neg hp]
  rw [if_neg hp]
  exact ⟨rfl, rfl, hperm.map _⟩

/-- Witness for C9: a one-key frame, its parse state, and the identity
permutation of the iteration order. -/
theorem claim9_order_dependent_witness :
    (decodeFrame (mkFrame [(kServerProtocol, strBytes "HTTP/1.1")] [5]) [kServerProtocol]).preamble
        = reqLineOf ([] : List Nat) ([] : List Nat) (strBytes "HTTP/1.1")
          ++ headerBytes [(kServerProtocol, [strBytes "HTTP/1.1"])] [kServerProtocol] ++ crlf ∧
    (decodeFrame (mkFrame [(kServerProtocol, strBytes "HTTP/1.1")] [5]) [kServerProtocol]).preamble
        = reqLineOf ([] : List Nat) ([] : List Nat) (strBytes "HTTP/1.1")
          ++ headerBytes [(kServerProtocol, [strBytes "HTTP/1.1"])] [kServerProtocol] ++ crlf ∧
    (hdrGroups [(kServerProtocol, [strBytes "HTTP/1.1"])] [kServerProtocol]).Perm
      (hdrGroups [(kServerProtocol, [strBytes "HTTP/1.1"])] [kServerProtocol]) :=
  claim9_order_dependent (mkFrame [(kServerProtocol, strBytes "HTTP/1.1")] [5])
    ⟨[(kServerProtocol, [strBytes "HTTP/1.1"])], [], [], strBytes "HTTP/1.1"⟩ [5]
    [kServerProtocol] [kServerProtocol] (by decide) (by decide) (by decide)

/-- Counterexample for C9 as frozen: the same frame bytes decoded under two
admissible map iteration orders (both permutations of the decoded
environment's keys) produce different preamble bytes, so two decode runs
over the same frame need not agree. -/
theorem claim9_counterexample :
    [kServerProtocol, strBytes "X", strBytes "Y"].Perm
      (keysE (decodeFrame (mkFrame [(kServerProtocol, strBytes "HTTP/1.1"),
        (strBytes "X", strBytes "1"), (strBytes "Y", strBytes "2")] [])
        [kServerProtocol, strBytes "X", strBytes "Y"]).env) ∧
    [kServerProtocol, strBytes "Y", strBytes "X"].Perm
      (keysE (decodeFrame (mkFrame [(kServerProtocol, strBytes "HTTP/1.1"),
        (strBytes "X", strBytes "1"), (strBytes "Y", strBytes "2")] [])
        [kServerProtocol, strBytes "X", strBytes "Y"]).env) ∧
    (decodeFrame (mkFrame [(kServerProtocol, strBytes "HTTP/1.1"),
        (strBytes "X", strBytes "1"), (strBytes "Y", strBytes "2")] [])
        [kServerProtocol, strBytes "X", strBytes "Y"]).preamble
      ≠ (decodeFrame (mkFrame [(kServerProtocol, strBytes "HTTP/1.1"),
        (strBytes "X", strBytes "1"), (strBytes "Y", strBytes "2")] [])
        [kServerProtocol, strBytes "Y", strBytes "X"]).preamble := by
  decide

/-- C10: a frame whose declared block size is 0 parses an empty environment
(the scan loop exits on its first guard without consuming a byte) and then
fails decode with the "no protocol specified" FramingError, closing the
connection — it never succeeds with an empty Env. -/
theorem claim10_empty_block (b0 b3 : Nat) (rest : List Nat) (ord : List (List Nat)) :
    decodeFrame (b0 :: 0 :: 0 :: b3 :: rest) ord
      = ⟨.framingErr protoMsg, [], [], [], true, false⟩ := rfl

/-- Witness for C8: a concrete request evaluated on a failed dial, a failed
backend read, and a successful round trip. -/
theorem claim8_panics_on_failure_witness :
    passengerServe
        ⟨strBytes "GET", strBytes "/p", 0, strBytes "HTTP/1.1", strBytes "h:81",
          strBytes "1.2.3.4:5", strBytes "/p", [], [], []⟩
        (.error "refused") (.ok ([], [])) = .panicked "refused" ∧
    passengerServe
        ⟨strBytes "GET", strBytes "/p", 0, strBytes "HTTP/1.1", strBytes "h:81",
          strBytes "1.2.3.4:5", strBytes "/p", [], [], []⟩
        (.ok ()) (.error "refused") = .panicked "refused" ∧
    passengerServe
        ⟨strBytes "GET", strBytes "/p", 0, strBytes "HTTP/1.1", strBytes "h:81",
          strBytes "1.2.3.4:5", strBytes "/p", [], [], []⟩
        (.ok ()) (.ok ([(strBytes "Server", [strBytes "x"])], [1]))
      = .done (encodeFrame (buildHeader
          ⟨strBytes "GET", strBytes "/p", 0, strBytes "HTTP/1.1", strBytes "h:81",
            strBytes "1.2.3.4:5", strBytes "/p", [], [], []⟩)
          (⟨strBytes "GET", strBytes "/p", 0, strBytes "HTTP/1.1", strBytes "h:81",
            strBytes "1.2.3.4:5", strBytes "/p", [], [], []⟩ : GoRequest).body)
        [(strBytes "Server", [strBytes "x"])] [1] :=
  claim8_panics_on_failure
    ⟨strBytes "GET", strBytes "/p", 0, strBytes "HTTP/1.1", strBytes "h:81",
      strBytes "1.2.3.4:5", strBytes "/p", [], [], []⟩
    "refused" (.ok ([], []))
    [(strBytes "Server", [strBytes "x"])] [1]

/-- Witness for C10: a concrete zero-block-size frame with junk modifier
bytes and trailing stream bytes fails with the protocol error. -/
theorem claim10_empty_block_witness :
    decodeFrame (5 :: 0 :: 0 :: 7 :: [9, 9]) []
      = ⟨.framingErr protoMsg, [], [], [], true, false⟩ :=
  claim10_empty_block 5 7 [9, 9] []
